import Mathlib

/-!
# Verification of the txn pruning package (`prune.go`)

A shallow embedding of the pruning decision engine, option resolution,
orchestrator argument validation, the Remover abstraction, the prune-stats
lookup, the collection-name filter, and the token-to-id conversion from
`src/prune.go`, together with theorems settling the specification claims.

Modelling conventions:
* Go `int` is modelled as `Int` (counts may be negative sentinels);
  Go `time.Duration` as `Int` nanoseconds; Go `float32` factors as `Rat`
  (exact arithmetic in place of IEEE float32 rounding).
* Calls into the external database driver (mgo) are modelled as explicit
  outcome parameters: the embedded function receives the database response
  for the single call it makes and computes exactly what the Go code
  computes from it.
-/

namespace Txn

/-! ## Constants from `prune.go` -/

/-- Constant `defaultPruneFactor = 2.0`: used if users do not request a pruneFactor. -/
def defaultPruneFactor : ℚ := 2

/-- Constant `defaultMinNewTransactions = 100`. -/
def defaultMinNewTransactions : ℤ := 100

/-- Constant `defaultMaxNewTransactions = 100000`. -/
def defaultMaxNewTransactions : ℤ := 100000

/-- Constant `defaultSmallBatchTransactionCount = 1000`. -/
def defaultSmallBatchTransactionCount : ℤ := 1000

/-- Constant `defaultBatchTransactionSleepTime = 10 * time.Millisecond`, in nanoseconds. -/
def defaultBatchTransactionSleepTime : ℤ := 10000000

/-- Constant `maxBulkOps = 1000`: maximum number of operations in a bulk operation. -/
def maxBulkOps : ℕ := 1000

/-! ## PruneOptions and option resolution

The `PruneOptions` struct itself is declared elsewhere in the repository
(only `prune.go` is available); its fields are modelled from their uses in
`validatePruneOptions`, `shouldPrune` and `maybePrune`, and from the
configuration surface of the spec. -/

/-- Modelled from the spec: the run-configuration record (`PruneOptions`),
whose declaration is not in the available source. Field names and types
follow the accesses in `prune.go` (prune factor `float32` → `ℚ`; counts
`int` → `ℤ`; sleep `time.Duration` → `ℤ` nanoseconds). -/
structure PruneOptions where
  PruneFactor : ℚ
  MinNewTransactions : ℤ
  MaxNewTransactions : ℤ
  MaxBatches : ℤ
  BatchTransactionSleepTime : ℤ
  SmallBatchTransactionCount : ℤ
deriving DecidableEq, Repr

/-- Function `validatePruneOptions` from `prune.go`, resolving unset fields to
defaults. The Go code mutates its argument; the model returns the resolved
record. The constant `pruneMinTxnBatchSize` is declared elsewhere in the
repository and is taken as the explicit parameter `pruneMinTxnBatchSize`. -/
def validatePruneOptions (pruneMinTxnBatchSize : ℤ) (p : PruneOptions) : PruneOptions where
  -- The Go function applies six sequential in-place ifs, each reading and
  -- writing only the field it tests, so the resolution is field-wise.
  PruneFactor := if p.PruneFactor = 0 then defaultPruneFactor else p.PruneFactor
  MinNewTransactions :=
    if p.MinNewTransactions = 0 then defaultMinNewTransactions else p.MinNewTransactions
  MaxNewTransactions :=
    if p.MaxNewTransactions = 0 then defaultMaxNewTransactions else p.MaxNewTransactions
  MaxBatches := if p.MaxBatches ≤ 0 then 1 else p.MaxBatches
  BatchTransactionSleepTime :=
    if p.BatchTransactionSleepTime < 0 then defaultBatchTransactionSleepTime
    else p.BatchTransactionSleepTime
  SmallBatchTransactionCount :=
    if p.SmallBatchTransactionCount < pruneMinTxnBatchSize then
      defaultSmallBatchTransactionCount
    else p.SmallBatchTransactionCount

/-! ## Decision engine -/

/-- Function `shouldPrune(oldCount, newCount, pruneOptions)` from `prune.go`.
The float32 products `float32(oldCount) * pruneOptions.PruneFactor` and
`float32(newCount)` are modelled with exact rational arithmetic. -/
def shouldPrune (oldCount newCount : ℤ) (pruneOptions : PruneOptions) : Bool × String :=
  if oldCount < 0 then
    (true, "no pruning run found")
  else
    let difference := newCount - oldCount
    if difference < pruneOptions.MinNewTransactions then
      (false, "not enough new transactions")
    else if pruneOptions.MaxNewTransactions < difference then
      (true, "too many new transactions")
    else
      let factored := (oldCount : ℚ) * pruneOptions.PruneFactor
      if factored ≤ (newCount : ℚ) then
        (true, "transactions have grown significantly")
      else
        (false, "transactions have not grown significantly")

/-! ## Orchestrator arguments and validation

The constants `maxBatchSleepTime`, `pruneTxnBatchSize`, `pruneMinTxnBatchSize`
and `pruneMaxTxnBatchSize` referenced by `CleanAndPruneArgs.validate` are
declared elsewhere in the repository; they are gathered in a record of
explicit parameters. -/

/-- Modelled from the spec: the fixed validation constants declared outside
the available source — the sleep-duration ceiling and the default/min/max
transaction batch sizes ("batch size, if unset, defaults to a fixed
constant, and must lie within `[minTxnBatchSize, maxTxnBatchSize]`"). -/
structure ValidationConsts where
  maxBatchSleepTime : ℤ
  pruneTxnBatchSize : ℤ
  pruneMinTxnBatchSize : ℤ
  pruneMaxTxnBatchSize : ℤ
deriving DecidableEq, Repr

/-- Structure `CleanAndPruneArgs` from `prune.go`. The `*mgo.Collection` handle is
modelled as `Option Unit` (`none` = Go `nil`); times as `ℤ`. -/
structure CleanAndPruneArgs where
  Txns : Option Unit
  TxnsCount : ℤ
  MaxTime : ℤ
  MaxTransactionsToProcess : ℤ
  Multithreaded : Bool
  TxnBatchSize : ℤ
  TxnBatchSleepTime : ℤ
deriving DecidableEq, Repr

/-- The configuration errors `CleanAndPruneArgs.validate` can report
(the Go code formats message strings; only the error case matters here). -/
inductive ValidateError where
  | nilTxns
  | sleepOutOfRange
  | batchTooSmall
  | batchTooBig
deriving DecidableEq, Repr

/-- Method `CleanAndPruneArgs.validate` from `prune.go`. The Go method mutates
`args.TxnBatchSize` in place when it is unset; the model returns the
resolved arguments on success. -/
def CleanAndPruneArgs.validate (c : ValidationConsts) (args : CleanAndPruneArgs) :
    Except ValidateError CleanAndPruneArgs :=
  match args.Txns with
  | none => .error .nilTxns
  | some _ =>
    if args.TxnBatchSleepTime < 0 ∨ c.maxBatchSleepTime < args.TxnBatchSleepTime then
      .error .sleepOutOfRange
    else
      -- A value of 0 indicates that we should use the default as it has not been set
      let args := if args.TxnBatchSize = 0 then
        { args with TxnBatchSize := c.pruneTxnBatchSize } else args
      if args.TxnBatchSize < c.pruneMinTxnBatchSize then .error .batchTooSmall
      else if c.pruneMaxTxnBatchSize < args.TxnBatchSize then .error .batchTooBig
      else .ok args

/-! ## Orchestrator (`CleanAndPrune`) -/

/-- Modelled from the spec: the statistics record of the incremental pruning
engine (`PrunerStats`), declared outside the available source; fields follow
the accesses in `CleanAndPrune` (`TxnsRemoved`, `DocQueuesCleaned`,
`StashDocsRemoved`, `DocCacheMisses`, `DocCacheHits`, `CollectionQueries`). -/
structure PrunerStats where
  TxnsRemoved : ℤ
  DocQueuesCleaned : ℤ
  StashDocsRemoved : ℤ
  DocCacheMisses : ℤ
  DocCacheHits : ℤ
  CollectionQueries : ℤ
deriving DecidableEq, Repr

/-- The all-zero `PrunerStats` (Go `var pstats PrunerStats`). -/
def PrunerStats.zero : PrunerStats := ⟨0, 0, 0, 0, 0, 0⟩

/-- Modelled from the spec: `CombineStats`, declared outside the available
source — "their statistics are combined by simple field-wise addition". -/
def CombineStats (a b : PrunerStats) : PrunerStats :=
  ⟨a.TxnsRemoved + b.TxnsRemoved,
   a.DocQueuesCleaned + b.DocQueuesCleaned,
   a.StashDocsRemoved + b.StashDocsRemoved,
   a.DocCacheMisses + b.DocCacheMisses,
   a.DocCacheHits + b.DocCacheHits,
   a.CollectionQueries + b.CollectionQueries⟩

/-- Structure `CleanupStats` from `prune.go`. -/
structure CleanupStats where
  CollectionsInspected : ℤ
  DocsInspected : ℤ
  DocsCleaned : ℤ
  StashDocumentsRemoved : ℤ
  TransactionsRemoved : ℤ
  ShouldRetry : Bool
deriving DecidableEq, Repr

/-- The zero value of `CleanupStats` (Go `var stats CleanupStats`). -/
def CleanupStats.zero : CleanupStats := ⟨0, 0, 0, 0, 0, false⟩

/-- The outcome of one incremental pruner pass (`pruner.Prune(args.Txns)`),
supplied to the orchestrator model as an oracle: the statistics of the pass and
its error, with `none` for success. -/
structure PassOutcome where
  pstats : PrunerStats
  err : Option String
deriving DecidableEq, Repr

/-- The error returned by `CleanAndPrune`: either a configuration error from
`validate`, or the first error of a sweep. -/
inductive CleanAndPruneError where
  | config (e : ValidateError)
  | sweep (msg : String)
deriving DecidableEq, Repr

/-- The result of `CleanAndPrune`: the returned statistics, the returned
error, and how many engine sweeps were started (0 when validation failed). -/
structure CleanAndPruneResult where
  stats : CleanupStats
  err : Option CleanAndPruneError
  sweepsStarted : ℕ
deriving DecidableEq, Repr

/-- Function `CleanAndPrune` from `prune.go`. The two possible pruner passes are
oracles `fwd` (the always-run forward pass) and `rev` (the reverse pass, run
only when `Multithreaded`); which error of the two is recorded first depends on
goroutine scheduling, which no claim here depends on — the model takes them
in the order `fwd`, `rev`. On any error the Go function returns the still
zero-valued `stats`; otherwise it copies the combined `PrunerStats` fields. -/
def CleanAndPrune (c : ValidationConsts) (args : CleanAndPruneArgs)
    (fwd rev : PassOutcome) : CleanAndPruneResult :=
  match args.validate c with
  | .error e => ⟨CleanupStats.zero, some (.config e), 0⟩
  | .ok args' =>
    let outcomes := if args'.Multithreaded then [fwd, rev] else [fwd]
    let pstats := outcomes.foldl (fun acc o => CombineStats acc o.pstats) PrunerStats.zero
    match outcomes.findSome? (·.err) with
    | some m => ⟨CleanupStats.zero, some (.sweep m), outcomes.length⟩
    | none =>
      ⟨{ CollectionsInspected := pstats.CollectionQueries
         DocsInspected := pstats.DocCacheMisses + pstats.DocCacheHits
         DocsCleaned := pstats.DocQueuesCleaned
         StashDocumentsRemoved := pstats.StashDocsRemoved
         TransactionsRemoved := pstats.TxnsRemoved
         ShouldRetry := false },
       none, outcomes.length⟩

/-! ## Prune-stats lookup (`getPruneLastTxnsCount`) -/

/-- Structure `pruneStats` from `prune.go` (the persisted per-run snapshot);
`bson.ObjectId` and `time.Time` fields modelled as `ℤ`. -/
structure pruneStats where
  Id : ℤ
  Started : ℤ
  Completed : ℤ
  TxnsBefore : ℤ
  TxnsAfter : ℤ
  StashDocsBefore : ℤ
  StashDocsAfter : ℤ
deriving DecidableEq, Repr

/-- Outcome of one `FindId(..).One(..)` call against the database:
the document, `mgo.ErrNotFound`, or any other driver error. -/
inductive FindOutcome (α : Type) where
  | found (doc : α)
  | notFound
  | err (msg : String)
deriving DecidableEq, Repr

/-- Function `getPruneLastTxnsCount` from `prune.go`. The two database reads are
modelled by oracles: `ptrOutcome` is the result of looking up the pointer
document keyed `"last"` (carrying its `"id"` field, an `ℤ` snapshot id),
and `findSnap` maps a snapshot id to the result of looking it up. Returns
`-1` with no error when no reliable value is available. -/
def getPruneLastTxnsCount (ptrOutcome : FindOutcome ℤ)
    (findSnap : ℤ → FindOutcome pruneStats) : Except String ℤ :=
  match ptrOutcome with
  | .notFound => .ok (-1)
  | .err m => .error ("failed to load pruning stats pointer: " ++ m)
  | .found sid =>
    match findSnap sid with
    | .notFound =>
      -- Pointer was broken. Recover by returning a count which will force pruning.
      .ok (-1)
    | .err m => .error ("failed to load pruning stats: " ++ m)
    | .found doc => .ok doc.TxnsAfter

/-! ## Collection-name filter -/

/-- The Go standard function `strings.HasPrefix(s, pre)` on the underlying character data. -/
def hasPrefixGo (s pre : String) : Bool := pre.data.isPrefixOf s.data

/-- The `hasTxnReferences` closure inside `txnCollections` in `prune.go`. -/
def hasTxnReferences (txnsName name : String) : Bool :=
  if name == txnsName ++ ".stash" then
    true -- Need to look in the stash.
  else if name == txnsName || hasPrefixGo name (txnsName ++ ".") then
    false -- The txns collection and its children should not be considered.
  else if name == "statuseshistory" then
    false -- special case that does not use txn and does get fairly big
  else if hasPrefixGo name "system." then
    false -- Do not look in system collections.
  else
    true -- Everything else needs to be considered.

/-- Function `txnCollections` from `prune.go`: filters the collection
names of a database to the ones that may have txn references. -/
def txnCollections (inNames : List String) (txnsName : String) : List String :=
  inNames.filter (hasTxnReferences txnsName)

/-- Spec-side description of the filter, for comparison with
`txnCollections`: keep exactly the names that are the stash collection, or
that are none of the base collection, a `base.`-prefixed name,
`"statuseshistory"`, or a `system.`-prefixed name. -/
def specKeepsName (txnsName name : String) : Bool :=
  name == txnsName ++ ".stash" ||
    !(name == txnsName || hasPrefixGo name (txnsName ++ ".") ||
      name == "statuseshistory" || hasPrefixGo name "system.")

/-! ## Token to id (`txnTokenToId`) -/

/-- Type `bson.ObjectId` as its 24-hex-character representation. -/
def ObjectId : Type := String
deriving instance DecidableEq, Repr for ObjectId

/-- Function `bson.ObjectIdHex` of the external bson library, abstracted as the
identity on the hex representation (hex decoding is outside this
repository). -/
def ObjectIdHex (s : String) : ObjectId := s

/-- Function `txnTokenToId` from `prune.go`: `bson.ObjectIdHex(token[:24])`.
The Go byte slice `token[:24]` panics when the token is shorter than 24,
modelled as `none`; characters model the ASCII bytes of a token. -/
def txnTokenToId (token : String) : Option ObjectId :=
  if 24 ≤ token.data.length then some (ObjectIdHex ⟨token.data.take 24⟩) else none

/-! ## Remover abstraction

Both removers are modelled with the identifier type as a parameter `α`
(Go `interface{}`). Each database call is an oracle argument: the methods
return the new state (`none` when the Go method returns a non-nil error)
together with a `Bool` recording whether a database operation was issued. -/

variable {α : Type}

/-- Outcome of `coll.RemoveAll(filter)`: success carrying
`result.Removed`, `mgo.ErrNotFound` (for which the driver reports a zero
removed count), or any other error. -/
inductive RemoveAllOutcome where
  | ok (removed : ℕ)
  | notFound
  | fail
deriving DecidableEq, Repr

/-- Structure `batchRemover` from `prune.go`: a queue of raw identifiers plus the
cumulative removed count. -/
structure BatchRemover (α : Type) where
  queue : List α
  removed : ℕ
deriving DecidableEq, Repr

/-- Constructor `newBatchRemover` from `prune.go` (the collection handle is implicit in
the oracle supplied to each flush). -/
def newBatchRemover (α : Type) : BatchRemover α := ⟨[], 0⟩

/-- Method `batchRemover.Flush`: nothing to do when the queue is empty; otherwise
issue one multi-id `RemoveAll` — on success or `ErrNotFound` accumulate the
removed count and reset the queue, on any other error return it with the
state unchanged. -/
def BatchRemover.Flush (r : BatchRemover α) (resp : RemoveAllOutcome) :
    Option (BatchRemover α) × Bool :=
  if r.queue.length < 1 then
    (some r, false) -- Nothing to do
  else
    match resp with
    | .ok n => (some ⟨[], r.removed + n⟩, true)
    | .notFound =>
      -- It is OK for txns to no longer exist.
      (some ⟨[], r.removed⟩, true)
    | .fail => (none, true)

/-- Method `batchRemover.Remove`: append the id to the queue and flush once the
queue has reached `maxBulkOps`. -/
def BatchRemover.Remove (r : BatchRemover α) (id : α) (resp : RemoveAllOutcome) :
    Option (BatchRemover α) × Bool :=
  let r' : BatchRemover α := ⟨r.queue ++ [id], r.removed⟩
  if maxBulkOps ≤ r'.queue.length then r'.Flush resp else (some r', false)

/-- Outcome of `chunk.Run()` on an `mgo.Bulk`: success carrying
`result.Matched`, `mgo.ErrNotFound` with the possibly-nil result (the Go
code guards `if result != nil`), or any other error. -/
inductive BulkRunOutcome where
  | ok (matched : ℕ)
  | notFound (result : Option ℕ)
  | fail
deriving DecidableEq, Repr

/-- Structure `bulkRemover` from `prune.go`: the queued delete
ids of the current bulk chunk, the tracked chunk size, and the cumulative removed count. -/
structure BulkRemover (α : Type) where
  chunk : List α
  chunkSize : ℕ
  removed : ℕ
deriving DecidableEq, Repr

/-- Method `bulkRemover.newChunk`: start a fresh unordered bulk operation. -/
def BulkRemover.newChunk (r : BulkRemover α) : BulkRemover α :=
  { r with chunk := [], chunkSize := 0 }

/-- Constructor `newBulkRemover` from `prune.go`: constructs the remover and calls
`newChunk`. -/
def newBulkRemover (α : Type) : BulkRemover α :=
  BulkRemover.newChunk ⟨[], 0, 0⟩

/-- Method `bulkRemover.Flush`: nothing to do when the chunk is empty; otherwise
run the bulk — on success or `ErrNotFound` accumulate `result.Matched`
(when the result is non-nil) and start a new chunk, on any other error
return it with the state unchanged. -/
def BulkRemover.Flush (r : BulkRemover α) (resp : BulkRunOutcome) :
    Option (BulkRemover α) × Bool :=
  if r.chunkSize < 1 then
    (some r, false) -- Nothing to do
  else
    match resp with
    | .ok m => (some ({ r with removed := r.removed + m }).newChunk, true)
    | .notFound result =>
      -- It is OK for txns to no longer exist.
      match result with
      | some m => (some ({ r with removed := r.removed + m }).newChunk, true)
      | none => (some r.newChunk, true)
    | .fail => (none, true)

/-- Method `bulkRemover.Remove`: add a single-id delete to the chunk, bump the
chunk size, and flush once it has reached `maxBulkOps`. -/
def BulkRemover.Remove (r : BulkRemover α) (id : α) (resp : BulkRunOutcome) :
    Option (BulkRemover α) × Bool :=
  let r' : BulkRemover α := { r with chunk := r.chunk ++ [id], chunkSize := r.chunkSize + 1 }
  if maxBulkOps ≤ r'.chunkSize then r'.Flush resp else (some r', false)

/-- States of a `batchRemover` reachable from construction by any sequence
of successful `Remove` and `Flush` calls (with arbitrary database
responses). -/
inductive BatchReachable : BatchRemover α → Prop
  | init : BatchReachable (newBatchRemover α)
  | removeStep {r r' : BatchRemover α} {id : α} {resp : RemoveAllOutcome} :
      BatchReachable r → (r.Remove id resp).1 = some r' → BatchReachable r'
  | flushStep {r r' : BatchRemover α} {resp : RemoveAllOutcome} :
      BatchReachable r → (r.Flush resp).1 = some r' → BatchReachable r'

/-- States of a `bulkRemover` reachable from construction by any sequence
of successful `Remove` and `Flush` calls. -/
inductive BulkReachable : BulkRemover α → Prop
  | init : BulkReachable (newBulkRemover α)
  | removeStep {r r' : BulkRemover α} {id : α} {resp : BulkRunOutcome} :
      BulkReachable r → (r.Remove id resp).1 = some r' → BulkReachable r'
  | flushStep {r r' : BulkRemover α} {resp : BulkRunOutcome} :
      BulkReachable r → (r.Flush resp).1 = some r' → BulkReachable r'

/-! ## Theorems -/

theorem validatePruneOptions_eq (m : ℤ) (f : ℚ) (mn mx mb sl sb : ℤ) :
    validatePruneOptions m ⟨f, mn, mx, mb, sl, sb⟩ =
      ⟨if f = 0 then defaultPruneFactor else f,
       if mn = 0 then defaultMinNewTransactions else mn,
       if mx = 0 then defaultMaxNewTransactions else mx,
       if mb ≤ 0 then 1 else mb,
       if sl < 0 then defaultBatchTransactionSleepTime else sl,
       if sb < m then defaultSmallBatchTransactionCount else sb⟩ := rfl

/-- C6: `validatePruneOptions` is idempotent — resolving an already-resolved
configuration changes nothing, for every input options value and every value
of the (externally declared) minimum batch-size constant. -/
theorem validatePruneOptions_idempotent (m : ℤ) (p : PruneOptions) :
    validatePruneOptions m (validatePruneOptions m p) = validatePruneOptions m p := by
  obtain ⟨f, mn, mx, mb, sl, sb⟩ := p
  rw [validatePruneOptions_eq, validatePruneOptions_eq]
  simp only [PruneOptions.mk.injEq, defaultPruneFactor, defaultMinNewTransactions,
    defaultMaxNewTransactions, defaultBatchTransactionSleepTime,
    defaultSmallBatchTransactionCount]
  refine ⟨?_, ?_, ?_, ?_, ?_, ?_⟩ <;> split_ifs <;> rfl

/-- C7: `validatePruneOptions` never reports an error (it is total) and
resolves unset fields to the documented defaults — zero factor to 2.0, zero
min-new to 100, zero max-new to 100000, non-positive max-batches to 1,
negative sleep to the documented default with the result always
non-negative, unset (zero) batch size to the default 1000 — while leaving
fields already set to valid values unchanged. -/
theorem validatePruneOptions_defaults (m : ℤ) (p : PruneOptions) :
      ((p.PruneFactor = 0 → (validatePruneOptions m p).PruneFactor = 2)
    ∧ (p.PruneFactor ≠ 0 → (validatePruneOptions m p).PruneFactor = p.PruneFactor))
  ∧ ((p.MinNewTransactions = 0 → (validatePruneOptions m p).MinNewTransactions = 100)
    ∧ (p.MinNewTransactions ≠ 0 →
        (validatePruneOptions m p).MinNewTransactions = p.MinNewTransactions))
  ∧ ((p.MaxNewTransactions = 0 → (validatePruneOptions m p).MaxNewTransactions = 100000)
    ∧ (p.MaxNewTransactions ≠ 0 →
        (validatePruneOptions m p).MaxNewTransactions = p.MaxNewTransactions))
  ∧ ((p.MaxBatches ≤ 0 → (validatePruneOptions m p).MaxBatches = 1)
    ∧ (0 < p.MaxBatches → (validatePruneOptions m p).MaxBatches = p.MaxBatches))
  ∧ ((p.BatchTransactionSleepTime < 0 →
        (validatePruneOptions m p).BatchTransactionSleepTime = defaultBatchTransactionSleepTime)
    ∧ (0 ≤ p.BatchTransactionSleepTime →
        (validatePruneOptions m p).BatchTransactionSleepTime = p.BatchTransactionSleepTime)
    ∧ 0 ≤ (validatePruneOptions m p).BatchTransactionSleepTime)
  ∧ ((0 < m → p.SmallBatchTransactionCount = 0 →
        (validatePruneOptions m p).SmallBatchTransactionCount = 1000)
    ∧ (m ≤ p.SmallBatchTransactionCount →
        (validatePruneOptions m p).SmallBatchTransactionCount =
          p.SmallBatchTransactionCount)) := by
  obtain ⟨f, mn, mx, mb, sl, sb⟩ := p
  rw [validatePruneOptions_eq]
  simp only [defaultPruneFactor, defaultMinNewTransactions, defaultMaxNewTransactions,
    defaultBatchTransactionSleepTime, defaultSmallBatchTransactionCount]
  refine ⟨⟨?_, ?_⟩, ⟨?_, ?_⟩, ⟨?_, ?_⟩, ⟨?_, ?_⟩, ⟨?_, ?_, ?_⟩, ⟨?_, ?_⟩⟩ <;>
    intros <;> split_ifs <;> first | rfl | simp_all | omega

/-- Witness for C7 at a concrete unset configuration. -/
theorem validatePruneOptions_defaults_witness :
    (validatePruneOptions 10 ⟨0, 0, 0, 0, -1, 0⟩).PruneFactor = 2 ∧
      (validatePruneOptions 10 ⟨0, 0, 0, 0, -1, 0⟩).SmallBatchTransactionCount = 1000 :=
  ⟨(validatePruneOptions_defaults 10 ⟨0, 0, 0, 0, -1, 0⟩).1.1 rfl,
   (validatePruneOptions_defaults 10 ⟨0, 0, 0, 0, -1, 0⟩).2.2.2.2.2.1 (by norm_num) rfl⟩

/-- C1: the full case analysis of `shouldPrune` — unknown last count forces
pruning; too few new transactions skips; too many forces; growth beyond the
prune factor forces; otherwise skip — together with the three concrete
evaluations at options `{Min: 100, MaxNew: 100000, Factor: 2.0}`. -/
theorem shouldPrune_spec :
    (∀ (o n : ℤ) (opts : PruneOptions), o < 0 →
        shouldPrune o n opts = (true, "no pruning run found"))
  ∧ (∀ (o n : ℤ) (opts : PruneOptions), 0 ≤ o → n - o < opts.MinNewTransactions →
        shouldPrune o n opts = (false, "not enough new transactions"))
  ∧ (∀ (o n : ℤ) (opts : PruneOptions), 0 ≤ o → opts.MinNewTransactions ≤ n - o →
        opts.MaxNewTransactions < n - o →
        shouldPrune o n opts = (true, "too many new transactions"))
  ∧ (∀ (o n : ℤ) (opts : PruneOptions), 0 ≤ o → opts.MinNewTransactions ≤ n - o →
        n - o ≤ opts.MaxNewTransactions → (o : ℚ) * opts.PruneFactor ≤ (n : ℚ) →
        shouldPrune o n opts = (true, "transactions have grown significantly"))
  ∧ (∀ (o n : ℤ) (opts : PruneOptions), 0 ≤ o → opts.MinNewTransactions ≤ n - o →
        n - o ≤ opts.MaxNewTransactions → (n : ℚ) < (o : ℚ) * opts.PruneFactor →
        shouldPrune o n opts = (false, "transactions have not grown significantly"))
  ∧ shouldPrune 1000 1150 ⟨2, 100, 100000, 1, 0, 1000⟩ =
      (false, "transactions have not grown significantly")
  ∧ shouldPrune 1000 2100 ⟨2, 100, 100000, 1, 0, 1000⟩ =
      (true, "transactions have grown significantly")
  ∧ shouldPrune 1000 101101 ⟨2, 100, 100000, 1, 0, 1000⟩ =
      (true, "too many new transactions") := by
  refine ⟨?_, ?_, ?_, ?_, ?_, ?_, ?_, ?_⟩
  · intro o n opts h
    simp only [shouldPrune]
    rw [if_pos h]
  · intro o n opts h0 h1
    simp only [shouldPrune]
    rw [if_neg (by omega), if_pos h1]
  · intro o n opts h0 h1 h2
    simp only [shouldPrune]
    rw [if_neg (by omega), if_neg (by omega), if_pos h2]
  · intro o n opts h0 h1 h2 h3
    simp only [shouldPrune]
    rw [if_neg (by omega), if_neg (by omega), if_neg (by omega), if_pos h3]
  · intro o n opts h0 h1 h2 h3
    simp only [shouldPrune]
    rw [if_neg (by omega), if_neg (by omega), if_neg (by omega),
      if_neg (not_le.mpr h3)]
  · norm_num [shouldPrune]
  · norm_num [shouldPrune]
  · norm_num [shouldPrune]

/-- Witness for C1 at a concrete unknown-last-count input. -/
theorem shouldPrune_spec_witness :
    shouldPrune (-1) 50 ⟨2, 100, 100000, 1, 0, 1000⟩ = (true, "no pruning run found") :=
  shouldPrune_spec.1 (-1) 50 ⟨2, 100, 100000, 1, 0, 1000⟩ (by norm_num)

theorem hasTxnReferences_eq_specKeepsName (t n : String) :
    hasTxnReferences t n = specKeepsName t n := by
  simp only [hasTxnReferences, specKeepsName]
  cases h1 : (n == t ++ ".stash") <;>
    cases h2 : (n == t) <;>
    cases h3 : hasPrefixGo n (t ++ ".") <;>
    cases h4 : (n == "statuseshistory") <;>
    cases h5 : hasPrefixGo n "system." <;>
    simp [h1, h2, h3, h4, h5]

/-- C4: `txnCollections` keeps exactly the names that are the stash
collection or that are none of the base collection, a base-dot-prefixed
name, the exact name statuseshistory, or a system-prefixed name; on the
concrete input from the spec it yields exactly the stash collection and the
plain user collection. -/
theorem txnCollections_spec :
    (∀ (txnsName : String) (inNames : List String),
        txnCollections inNames txnsName = inNames.filter (specKeepsName txnsName))
  ∧ txnCollections
        ["txns", "txns.stash", "txns.prune", "statuseshistory", "system.indexes", "widgets"]
        "txns"
      = ["txns.stash", "widgets"] := by
  constructor
  · intro t l
    exact List.filter_congr fun n _ => hasTxnReferences_eq_specKeepsName t n
  · decide

/-- C10: `txnTokenToId` is defined exactly on tokens of length at least 24,
where it returns the object id built from the first 24 characters — for a
well-formed token `<id>_<nonce>` with a 24-character id it returns that id,
ignoring the nonce suffix entirely — and on shorter strings the Go slice
`token[:24]` is out of range, so there is no result. -/
theorem txnTokenToId_spec :
    (∀ (token : String), 24 ≤ token.data.length →
        txnTokenToId token = some (ObjectIdHex ⟨token.data.take 24⟩))
  ∧ (∀ (idStr nonce : String), idStr.data.length = 24 →
        txnTokenToId (idStr ++ "_" ++ nonce) = some (ObjectIdHex idStr))
  ∧ (∀ (token : String), token.data.length < 24 → txnTokenToId token = none) := by
  refine ⟨?_, ?_, ?_⟩
  · intro token h
    simp only [txnTokenToId]
    rw [if_pos h]
  · intro idStr nonce h
    obtain ⟨l⟩ := idStr
    obtain ⟨m⟩ := nonce
    simp only [txnTokenToId, ObjectIdHex, String.data] at *
    have hdata : (String.mk l ++ "_" ++ String.mk m).data = l ++ ('_' :: m) := by
      simp [String.append_assoc, String.data_append]
    rw [hdata]
    have hlen : 24 ≤ (l ++ ('_' :: m)).length := by
      simp [List.length_append, h]
    rw [if_pos hlen]
    have htake : (l ++ ('_' :: m)).take 24 = l := by
      rw [← h]
      exact List.take_left l ('_' :: m)
    rw [htake]
  · intro token h
    simp only [txnTokenToId]
    rw [if_neg (by omega)]

/-- Witness for C10 at a concrete well-formed token. -/
theorem txnTokenToId_spec_witness :
    txnTokenToId ("0123456789abcdef01234567" ++ "_" ++ "99") =
      some (ObjectIdHex "0123456789abcdef01234567") :=
  txnTokenToId_spec.2.1 "0123456789abcdef01234567" "99" (by decide)

/-- C5: `getPruneLastTxnsCount` returns the unknown-count sentinel `-1`
with no error both when the pointer document is missing and when the
pointer exists but names a missing snapshot; it returns an error only for
database read failures other than not-found; and a `-1` last count makes
the next `shouldPrune` decision prune. -/
theorem getPruneLastTxnsCount_spec :
    (∀ (f : ℤ → FindOutcome pruneStats),
        getPruneLastTxnsCount .notFound f = .ok (-1))
  ∧ (∀ (sid : ℤ) (f : ℤ → FindOutcome pruneStats), f sid = .notFound →
        getPruneLastTxnsCount (.found sid) f = .ok (-1))
  ∧ (∀ (ptr : FindOutcome ℤ) (f : ℤ → FindOutcome pruneStats) (m : String),
        getPruneLastTxnsCount ptr f = .error m →
        (∃ m', ptr = .err m') ∨ (∃ sid m', ptr = .found sid ∧ f sid = .err m'))
  ∧ (∀ (n : ℤ) (opts : PruneOptions), (shouldPrune (-1) n opts).1 = true) := by
  refine ⟨?_, ?_, ?_, ?_⟩
  · intro f
    rfl
  · intro sid f h
    simp [getPruneLastTxnsCount, h]
  · intro ptr f m h
    cases ptr with
    | notFound => simp [getPruneLastTxnsCount] at h
    | err m' => exact Or.inl ⟨m', rfl⟩
    | found sid =>
      refine Or.inr ⟨sid, ?_⟩
      cases hf : f sid with
      | notFound => simp [getPruneLastTxnsCount, hf] at h
      | err m' => exact ⟨m', rfl, rfl⟩
      | found doc => simp [getPruneLastTxnsCount, hf] at h
  · intro n opts
    simp [shouldPrune]

/-- Witness for C5 at a concrete broken pointer. -/
theorem getPruneLastTxnsCount_spec_witness :
    getPruneLastTxnsCount (.found 7) (fun _ => .notFound) = .ok (-1) :=
  getPruneLastTxnsCount_spec.2.1 7 (fun _ => .notFound) rfl

/-- C2: for both removers, a not-found result from the database delete is
treated as a successful no-op — `Flush` reports no error and leaves the
remover with an empty queue/chunk, ready for further `Remove` calls — and
on an empty queue `Flush` issues no database operation and reports no
error. -/
theorem remover_flush_spec :
    (∀ (r : BatchRemover ℕ),
        (BatchRemover.Flush r .notFound).1 = some ⟨[], r.removed⟩)
  ∧ (∀ (r : BatchRemover ℕ), r.queue = [] →
        ∀ (resp : RemoveAllOutcome), BatchRemover.Flush r resp = (some r, false))
  ∧ (∀ (r : BulkRemover ℕ) (res : Option ℕ),
        ∃ r', (BulkRemover.Flush r (.notFound res)).1 = some r' ∧ r'.chunkSize = 0)
  ∧ (∀ (r : BulkRemover ℕ), r.chunkSize = 0 →
        ∀ (resp : BulkRunOutcome), BulkRemover.Flush r resp = (some r, false)) := by
  refine ⟨?_, ?_, ?_, ?_⟩
  · intro r
    obtain ⟨q, rem⟩ := r
    cases q with
    | nil => rfl
    | cons a l =>
      simp only [BatchRemover.Flush]
      rw [if_neg (by simp)]
  · intro r h resp
    obtain ⟨q, rem⟩ := r
    subst h
    rfl
  · intro r res
    obtain ⟨c, cs, rem⟩ := r
    cases cs with
    | zero => exact ⟨⟨c, 0, rem⟩, rfl, rfl⟩
    | succ k =>
      cases res with
      | some m =>
        refine ⟨⟨[], 0, rem + m⟩, ?_, rfl⟩
        simp only [BulkRemover.Flush]
        rw [if_neg (by omega)]
        rfl
      | none =>
        refine ⟨⟨[], 0, rem⟩, ?_, rfl⟩
        simp only [BulkRemover.Flush]
        rw [if_neg (by omega)]
        rfl
  · intro r h resp
    obtain ⟨c, cs, rem⟩ := r
    simp only at h
    subst h
    rfl

/-- Witness for C2 at concrete empty removers with a failing database. -/
theorem remover_flush_spec_witness :
    BatchRemover.Flush (⟨[], 3⟩ : BatchRemover ℕ) .fail = (some ⟨[], 3⟩, false) ∧
      BulkRemover.Flush (⟨[], 0, 4⟩ : BulkRemover ℕ) .fail = (some ⟨[], 0, 4⟩, false) :=
  ⟨remover_flush_spec.2.1 ⟨[], 3⟩ rfl .fail,
   remover_flush_spec.2.2.2 ⟨[], 0, 4⟩ rfl .fail⟩

theorem batch_flush_result {α : Type} {r r' : BatchRemover α} {resp : RemoveAllOutcome}
    (h : (BatchRemover.Flush r resp).1 = some r') :
    (r' = r ∧ r.queue.length < 1) ∨ r'.queue = [] := by
  simp only [BatchRemover.Flush] at h
  by_cases hc : r.queue.length < 1
  · rw [if_pos hc] at h
    simp only [Option.some.injEq] at h
    exact Or.inl ⟨h.symm, hc⟩
  · rw [if_neg hc] at h
    cases resp with
    | ok n =>
      simp only [Option.some.injEq] at h
      exact Or.inr (h ▸ rfl)
    | notFound =>
      simp only [Option.some.injEq] at h
      exact Or.inr (h ▸ rfl)
    | fail => simp at h

theorem batch_remove_bound {α : Type} {r r' : BatchRemover α} {id : α}
    {resp : RemoveAllOutcome} (h : (BatchRemover.Remove r id resp).1 = some r') :
    r'.queue.length < maxBulkOps := by
  simp only [BatchRemover.Remove] at h
  by_cases hc : maxBulkOps ≤ (r.queue ++ [id]).length
  · rw [if_pos hc] at h
    rcases batch_flush_result h with ⟨rfl, hlen⟩ | hq
    · simp at hlen
    · rw [hq]
      norm_num [maxBulkOps]
  · rw [if_neg hc] at h
    simp only [Option.some.injEq] at h
    rw [← h]
    show (r.queue ++ [id]).length < maxBulkOps
    omega

theorem batchReachable_lt {α : Type} {r : BatchRemover α} (h : BatchReachable r) :
    r.queue.length < maxBulkOps := by
  induction h with
  | init => norm_num [newBatchRemover, maxBulkOps]
  | removeStep _ hstep _ => exact batch_remove_bound hstep
  | flushStep _ hstep ih =>
    rcases batch_flush_result hstep with ⟨rfl, _⟩ | hq
    · exact ih
    · rw [hq]
      norm_num [maxBulkOps]

theorem bulk_flush_result {α : Type} {r r' : BulkRemover α} {resp : BulkRunOutcome}
    (h : (BulkRemover.Flush r resp).1 = some r') :
    (r' = r ∧ r.chunkSize < 1) ∨ r'.chunkSize = 0 := by
  simp only [BulkRemover.Flush] at h
  by_cases hc : r.chunkSize < 1
  · rw [if_pos hc] at h
    simp only [Option.some.injEq] at h
    exact Or.inl ⟨h.symm, hc⟩
  · rw [if_neg hc] at h
    cases resp with
    | ok m =>
      simp only [Option.some.injEq] at h
      exact Or.inr (h ▸ rfl)
    | notFound res =>
      cases res with
      | some m =>
        simp only [Option.some.injEq] at h
        exact Or.inr (h ▸ rfl)
      | none =>
        simp only [Option.some.injEq] at h
        exact Or.inr (h ▸ rfl)
    | fail => simp at h

theorem bulk_remove_bound {α : Type} {r r' : BulkRemover α} {id : α}
    {resp : BulkRunOutcome} (h : (BulkRemover.Remove r id resp).1 = some r') :
    r'.chunkSize < maxBulkOps := by
  simp only [BulkRemover.Remove] at h
  by_cases hc : maxBulkOps ≤ r.chunkSize + 1
  · rw [if_pos hc] at h
    rcases bulk_flush_result h with ⟨rfl, hlen⟩ | hq
    · simp at hlen
    · rw [hq]
      norm_num [maxBulkOps]
  · rw [if_neg hc] at h
    simp only [Option.some.injEq] at h
    rw [← h]
    show r.chunkSize + 1 < maxBulkOps
    omega

theorem bulkReachable_lt {α : Type} {r : BulkRemover α} (h : BulkReachable r) :
    r.chunkSize < maxBulkOps := by
  induction h with
  | init => norm_num [newBulkRemover, BulkRemover.newChunk, maxBulkOps]
  | removeStep _ hstep _ => exact bulk_remove_bound hstep
  | flushStep _ hstep ih =>
    rcases bulk_flush_result hstep with ⟨rfl, _⟩ | hq
    · exact ih
    · rw [hq]
      norm_num [maxBulkOps]

/-- C3: after every successful `Remove` (and `Flush`) call, starting from a
freshly constructed remover, the internal queue/chunk size is strictly below
`maxBulkOps` (1000), because `Remove` auto-flushes as soon as the queue
reaches that maximum — so no single flush ever covers more than
`maxBulkOps` identifiers. -/
theorem removers_never_accumulate_maxBulkOps :
    (∀ (α : Type) (r : BatchRemover α), BatchReachable r → r.queue.length < maxBulkOps)
  ∧ (∀ (α : Type) (r : BulkRemover α), BulkReachable r → r.chunkSize < maxBulkOps) :=
  ⟨fun _ _ h => batchReachable_lt h, fun _ _ h => bulkReachable_lt h⟩

/-- Witness for C3 at the freshly constructed removers. -/
theorem removers_never_accumulate_maxBulkOps_witness :
    (newBatchRemover ℕ).queue.length < maxBulkOps ∧
      (newBulkRemover ℕ).chunkSize < maxBulkOps :=
  ⟨removers_never_accumulate_maxBulkOps.1 ℕ _ BatchReachable.init,
   removers_never_accumulate_maxBulkOps.2 ℕ _ BulkReachable.init⟩

theorem validate_error_iff (c : ValidationConsts) (args : CleanAndPruneArgs) :
    (∃ e, args.validate c = Except.error e) ↔
      (args.Txns = none
        ∨ args.TxnBatchSleepTime < 0 ∨ c.maxBatchSleepTime < args.TxnBatchSleepTime
        ∨ (if args.TxnBatchSize = 0 then c.pruneTxnBatchSize else args.TxnBatchSize) <
            c.pruneMinTxnBatchSize
        ∨ c.pruneMaxTxnBatchSize <
            (if args.TxnBatchSize = 0 then c.pruneTxnBatchSize else args.TxnBatchSize)) := by
  obtain ⟨t, tc, mt, mtp, multi, bs, st⟩ := args
  cases t with
  | none => simp [CleanAndPruneArgs.validate]
  | some u =>
    simp only [CleanAndPruneArgs.validate]
    by_cases h1 : st < 0 ∨ c.maxBatchSleepTime < st
    · rw [if_pos h1]
      simp only [reduceCtorEq, false_or]
      constructor
      · intro _
        tauto
      · intro _
        exact ⟨.sleepOutOfRange, rfl⟩
    · rw [if_neg h1]
      by_cases h2 : bs = 0
      · subst h2
        simp only [if_pos rfl]
        split_ifs with h3 h4 <;> simp_all
      · rw [if_neg h2, if_neg h2]
        split_ifs with h3 h4 <;> simp_all

/-- C8: `CleanAndPrune` returns a configuration error — and starts no sweep,
returning the zero statistics with no database work — exactly when the
transaction collection handle is nil, or the sleep duration lies outside
`[0, maxBatchSleepTime]`, or the batch size after default resolution lies
outside `[pruneMinTxnBatchSize, pruneMaxTxnBatchSize]`. -/
theorem CleanAndPrune_config_error_iff (c : ValidationConsts) (args : CleanAndPruneArgs)
    (fwd rev : PassOutcome) :
    ((∃ e, (CleanAndPrune c args fwd rev).err = some (.config e)) ↔
      (args.Txns = none
        ∨ args.TxnBatchSleepTime < 0 ∨ c.maxBatchSleepTime < args.TxnBatchSleepTime
        ∨ (if args.TxnBatchSize = 0 then c.pruneTxnBatchSize else args.TxnBatchSize) <
            c.pruneMinTxnBatchSize
        ∨ c.pruneMaxTxnBatchSize <
            (if args.TxnBatchSize = 0 then c.pruneTxnBatchSize else args.TxnBatchSize)))
  ∧ ((∃ e, (CleanAndPrune c args fwd rev).err = some (.config e)) →
      (CleanAndPrune c args fwd rev).sweepsStarted = 0 ∧
        (CleanAndPrune c args fwd rev).stats = CleanupStats.zero) := by
  constructor
  · rw [← validate_error_iff c args]
    unfold CleanAndPrune
    cases hv : args.validate c with
    | error e => simp [hv]
    | ok a =>
      simp only [hv]
      cases hm : (if a.Multithreaded then [fwd, rev] else [fwd]).findSome? (·.err) with
      | none => simp [hm]
      | some m => simp [hm]
  · intro he
    unfold CleanAndPrune at he ⊢
    cases hv : args.validate c with
    | error e => simp [hv]
    | ok a =>
      simp only [hv] at he
      obtain ⟨e, he⟩ := he
      cases hm : (if a.Multithreaded then [fwd, rev] else [fwd]).findSome? (·.err) with
      | none => simp [hm] at he
      | some m => simp [hm] at he

/-- Witness for C8 at a concrete nil collection handle. -/
theorem CleanAndPrune_config_error_iff_witness :
    (∃ e, (CleanAndPrune ⟨100, 1000, 10, 10000⟩ ⟨none, 0, 0, 0, false, 0, 0⟩
        ⟨PrunerStats.zero, none⟩ ⟨PrunerStats.zero, none⟩).err = some (.config e)) ∧
      (CleanAndPrune ⟨100, 1000, 10, 10000⟩ ⟨none, 0, 0, 0, false, 0, 0⟩
        ⟨PrunerStats.zero, none⟩ ⟨PrunerStats.zero, none⟩).sweepsStarted = 0 := by
  have h := CleanAndPrune_config_error_iff ⟨100, 1000, 10, 10000⟩
    ⟨none, 0, 0, 0, false, 0, 0⟩ ⟨PrunerStats.zero, none⟩ ⟨PrunerStats.zero, none⟩
  have h1 := h.1.mpr (Or.inl rfl)
  exact ⟨h1, (h.2 h1).1⟩

/-- C9: whenever `CleanAndPrune` returns an error — whether from argument
validation or from a sweep, with or without partial work by the passes —
the returned `CleanupStats` is the zero value. -/
theorem CleanAndPrune_zero_stats_on_error (c : ValidationConsts)
    (args : CleanAndPruneArgs) (fwd rev : PassOutcome)
    (h : (CleanAndPrune c args fwd rev).err ≠ none) :
    (CleanAndPrune c args fwd rev).stats = CleanupStats.zero := by
  unfold CleanAndPrune at h ⊢
  cases hv : args.validate c with
  | error e => simp [hv]
  | ok a =>
    simp only [hv] at h ⊢
    cases hm : (if a.Multithreaded then [fwd, rev] else [fwd]).findSome? (·.err) with
    | none => simp [hm] at h
    | some m => simp [hm]

/-- Witness for C9 at a concrete failing validation. -/
theorem CleanAndPrune_zero_stats_on_error_witness :
    (CleanAndPrune ⟨1000000000, 1000, 10, 10000⟩ ⟨none, 0, 0, 0, false, 0, 0⟩
        ⟨PrunerStats.zero, none⟩ ⟨PrunerStats.zero, none⟩).stats = CleanupStats.zero :=
  CleanAndPrune_zero_stats_on_error ⟨1000000000, 1000, 10, 10000⟩
    ⟨none, 0, 0, 0, false, 0, 0⟩ ⟨PrunerStats.zero, none⟩ ⟨PrunerStats.zero, none⟩
    (by decide)

end Txn
